import Mathlib

/-
  Verification of the event-sourcing core of benjaminjacobberg/event-sourcing-rs.

  Shallow embedding conventions:
  * Rust `String` is modelled as Lean `String` (or `List Char` where the code
    manipulates the text character-wise, as the Kafka consumer does).
  * `Box<dyn std::error::Error + Send + Sync>` (the crate-wide `Error` alias in
    event-sourcing/src/lib.rs) is modelled as `String`: the only information the
    code ever puts into it is a message.
  * Rust `i64` is modelled as `Int` (none of the verified paths overflow),
    `u64`-free code needs no modular arithmetic.
  * Fallible Rust functions returning `Result<T, Error>` are modelled as
    `Except String T`, `Option` where the failure carries no information.
  * `serde_json` is an external crate; the envelope serialization it derives for
    `EventEnvelope` is embedded at the JSON-value level (`Json` below), with the
    `chrono::DateTime<Utc>` timestamp codec — the precision-relevant part of the
    serialization contract — embedded down to its RFC3339 character string, and
    a character-level JSON renderer for the published wire form.
-/

namespace EventSourcing

/-! ### Aggregate fold (event-sourcing/src/aggregate.rs)

The `Aggregate` trait declares `apply` and `apply_all`; the repository's
canonical implementation of `apply_all` (the doc example of aggregate.rs and
the `TestAggregate` implementation in snapshot/envelope.rs tests) is

  match events.into_iter().fold(Ok(None), |state, event| {
      Self::apply(state?, event).map(|new_state| Some(new_state))
  }) {
      Ok(Some(state)) => Ok(state),
      Ok(None) => Err(Error::try_from("Aggregate must not be None").unwrap()),
      Err(error) => Err(error),
  }

which we embed parametrically in the `apply` step function. -/

/-- One step of the fold inside `apply_all`: the closure
`|state, event| Self::apply(state?, event).map(Some)` — on an error state the
`?` short-circuits without calling `apply`. -/
def applyFoldStep {σ ε : Type} (apply : Option σ → ε → Except String σ)
    (state : Except String (Option σ)) (event : ε) : Except String (Option σ) :=
  match state with
  | Except.error e => Except.error e
  | Except.ok s => (apply s event).map some

/-- Embedding of `Aggregate::apply_all` (aggregate.rs lines 57-65 and
snapshot/envelope.rs lines 150-158), parametric in the aggregate's `apply`. -/
def apply_all {σ ε : Type} (apply : Option σ → ε → Except String σ)
    (events : List ε) : Except String σ :=
  match events.foldl (applyFoldStep apply) (Except.ok none) with
  | Except.ok (some state) => Except.ok state
  | Except.ok none => Except.error ("Aggregate must not be None")
  | Except.error e => Except.error e

/-! ### Timestamp codec (chrono `DateTime<Utc>` through serde)

`EventEnvelope.timestamp` is a `chrono::DateTime<Utc>`; serde serializes it as
an RFC3339 string `YYYY-MM-DDTHH:MM:SS[.fff[fff[fff]]]Z` (`SecondsFormat::AutoSi`
with a literal `Z` for the fixed UTC offset).  We represent the datetime by its
calendar components (a bijective view of chrono's value within RFC3339's
four-digit-year range) and embed the format/parse pair character by character. -/

structure UtcTimestamp where
  year : Nat
  month : Nat
  day : Nat
  hour : Nat
  minute : Nat
  second : Nat
  nanos : Nat
deriving DecidableEq

/-- Well-formedness of a timestamp: the component bounds chrono guarantees,
restricted to RFC3339's four-digit years. -/
def TsWF (t : UtcTimestamp) : Prop :=
  t.year ≤ 9999 ∧ 1 ≤ t.month ∧ t.month ≤ 12 ∧ 1 ≤ t.day ∧ t.day ≤ 31 ∧
    t.hour ≤ 23 ∧ t.minute ≤ 59 ∧ t.second ≤ 59 ∧ t.nanos < 1000000000

instance (t : UtcTimestamp) : Decidable (TsWF t) := by
  unfold TsWF; exact inferInstance

/-- The decimal digit characters used by the formatter. -/
def digitChar : Nat → Char
  | 0 => '0'
  | 1 => '1'
  | 2 => '2'
  | 3 => '3'
  | 4 => '4'
  | 5 => '5'
  | 6 => '6'
  | 7 => '7'
  | 8 => '8'
  | 9 => '9'
  | _ => 'x'

/-- Numeric value of a decimal digit character, `none` on non-digits. -/
def charVal (c : Char) : Option Nat :=
  if 48 ≤ c.toNat ∧ c.toNat ≤ 57 then some (c.toNat - 48) else none

def isDigitCharB (c : Char) : Bool := (charVal c).isSome

/-- Zero-padded fixed-width decimal rendering: `padChars k n` is the `k`
low-order decimal digits of `n` (all of `n` when `n < 10 ^ k`). -/
def padChars : Nat → Nat → List Char
  | 0, _ => []
  | k + 1, n => digitChar (n / 10 ^ k) :: padChars k (n % 10 ^ k)

/-- Fixed-width decimal parser: reads exactly `k` digit characters. -/
def parseFixed : Nat → List Char → Option (Nat × List Char)
  | 0, s => some (0, s)
  | _ + 1, [] => none
  | k + 1, c :: s =>
    match charVal c with
    | none => none
    | some d =>
      match parseFixed k s with
      | none => none
      | some (m, rest) => some (d * 10 ^ k + m, rest)

/-- Consume one expected literal character. -/
def expectChar (c : Char) : List Char → Option (List Char)
  | [] => none
  | x :: s => if x = c then some s else none

/-- The fractional-second part of chrono's `SecondsFormat::AutoSi`: omitted for
zero nanoseconds, otherwise 3, 6 or 9 digits depending on the finest non-zero
unit. -/
def fracChars (nanos : Nat) : List Char :=
  if nanos = 0 then []
  else if nanos % 1000000 = 0 then '.' :: padChars 3 (nanos / 1000000)
  else if nanos % 1000 = 0 then '.' :: padChars 6 (nanos / 1000)
  else '.' :: padChars 9 nanos

/-- Everything before the trailing `Z` of the RFC3339 rendering. -/
def formatBody (t : UtcTimestamp) : List Char :=
  padChars 4 t.year ++ '-' :: (padChars 2 t.month ++ '-' :: (padChars 2 t.day ++
    'T' :: (padChars 2 t.hour ++ ':' :: (padChars 2 t.minute ++ ':' ::
      (padChars 2 t.second ++ fracChars t.nanos)))))

/-- chrono's serde rendering of a `DateTime<Utc>`: RFC3339 with `AutoSi`
fractional seconds and the fixed `Z` (UTC) offset. -/
def formatTimestamp (t : UtcTimestamp) : List Char :=
  formatBody t ++ ['Z']

/-- Parser of the fractional-second part: a dot followed by 1 to 9 digits,
scaled to nanoseconds; absent dot means zero nanoseconds. -/
def parseFrac (s : List Char) : Option (Nat × List Char) :=
  match s with
  | [] => some (0, s)
  | c :: s' =>
    if c = '.' then
      if 1 ≤ (s'.takeWhile isDigitCharB).length ∧ (s'.takeWhile isDigitCharB).length ≤ 9 then
        match parseFixed (s'.takeWhile isDigitCharB).length s' with
        | some (m, rest) => some (m * 10 ^ (9 - (s'.takeWhile isDigitCharB).length), rest)
        | none => none
      else none
    else some (0, s)

/-- Parser for the strings `formatTimestamp` emits (chrono's deserializer
accepts this RFC3339/UTC form). -/
def parseTimestamp (s : List Char) : Option UtcTimestamp :=
  match parseFixed 4 s with
  | none => none
  | some (y, s1) =>
    match expectChar '-' s1 with
    | none => none
    | some s2 =>
      match parseFixed 2 s2 with
      | none => none
      | some (mo, s3) =>
        match expectChar '-' s3 with
        | none => none
        | some s4 =>
          match parseFixed 2 s4 with
          | none => none
          | some (d, s5) =>
            match expectChar 'T' s5 with
            | none => none
            | some s6 =>
              match parseFixed 2 s6 with
              | none => none
              | some (h, s7) =>
                match expectChar ':' s7 with
                | none => none
                | some s8 =>
                  match parseFixed 2 s8 with
                  | none => none
                  | some (mi, s9) =>
                    match expectChar ':' s9 with
                    | none => none
                    | some s10 =>
                      match parseFixed 2 s10 with
                      | none => none
                      | some (sec, s11) =>
                        match parseFrac s11 with
                        | none => none
                        | some (ns, s12) =>
                          match expectChar 'Z' s12 with
                          | none => none
                          | some s13 =>
                            if s13.isEmpty then
                              some (UtcTimestamp.mk y mo d h mi sec ns)
                            else none

/-! ### JSON values and the envelope codec (event-sourcing/src/event/envelope.rs)

`serialize`/`deserialize` delegate to `serde_json::to_string`/`from_str` with
the derived `Serialize`/`Deserialize` for `EventEnvelope<Event>`.  The derived
codec is embedded at the JSON-value level: an object with the struct's fields in
declaration order on encode, field lookup by name on decode.  `Uuid` is
represented by its hyphenated string form (serde encodes it as a string). -/

mutual
inductive Json where
  | str (s : String)
  | num (n : Int)
  | bool (b : Bool)
  | null
  | obj (fields : JFields)
  | arr (elems : JElems)
inductive JFields where
  | nil
  | cons (key : String) (value : Json) (rest : JFields)
inductive JElems where
  | nil
  | cons (value : Json) (rest : JElems)
end

def JFields.lookupField : JFields → String → Option Json
  | JFields.nil, _ => none
  | JFields.cons k v rest, name => if k = name then some v else rest.lookupField name

def Json.getField : Json → String → Option Json
  | Json.obj fs, name => fs.lookupField name
  | _, _ => none

def Json.asStr : Json → Option String
  | Json.str s => some s
  | _ => none

def Json.asInt : Json → Option Int
  | Json.num n => some n
  | _ => none

/-- Embedding of `EventEnvelope<Event>` (event/envelope.rs lines 14-35).
`id` is the Uuid in hyphenated string form, `timestamp` the calendar view of
the `DateTime<Utc>`. -/
structure EventEnvelope (Event : Type) where
  id : String
  aggregate_id : String
  aggregate_type : String
  data : Event
  event_type : String
  version : Int
  timestamp : UtcTimestamp
deriving DecidableEq

/-- Embedding of `serialize` (event/envelope.rs lines 76-80) at the JSON-value
level: the derived `Serialize` emits the fields in declaration order;
parametric in the payload's own encoder `encE`. -/
def serializeEnvelope {Event : Type} (encE : Event → Json)
    (e : EventEnvelope Event) : Json :=
  Json.obj (JFields.cons ("id") (Json.str e.id)
    (JFields.cons ("aggregate_id") (Json.str e.aggregate_id)
    (JFields.cons ("aggregate_type") (Json.str e.aggregate_type)
    (JFields.cons ("data") (encE e.data)
    (JFields.cons ("event_type") (Json.str e.event_type)
    (JFields.cons ("version") (Json.num e.version)
    (JFields.cons ("timestamp") (Json.str (String.mk (formatTimestamp e.timestamp)))
    JFields.nil)))))))

/-- Embedding of `deserialize` (event/envelope.rs lines 117-121): the derived
`Deserialize` looks every field up by name and decodes it with its field
codec; parametric in the payload's own decoder `decE`. -/
def deserializeEnvelope {Event : Type} (decE : Json → Option Event)
    (j : Json) : Option (EventEnvelope Event) :=
  match (j.getField ("id")).bind Json.asStr with
  | none => none
  | some idS =>
    match (j.getField ("aggregate_id")).bind Json.asStr with
    | none => none
    | some aggIdS =>
      match (j.getField ("aggregate_type")).bind Json.asStr with
      | none => none
      | some aggTyS =>
        match (j.getField ("data")).bind decE with
        | none => none
        | some dataE =>
          match (j.getField ("event_type")).bind Json.asStr with
          | none => none
          | some evTyS =>
            match (j.getField ("version")).bind Json.asInt with
            | none => none
            | some verI =>
              match ((j.getField ("timestamp")).bind Json.asStr).bind
                  (fun tsS => parseTimestamp tsS.data) with
              | none => none
              | some ts =>
                some (EventEnvelope.mk idS aggIdS aggTyS dataE evTyS verI ts)

/-! ### JSON text rendering (`serde_json::to_string` output form)

Needed to talk about the published wire payload the Kafka consumer receives:
compact rendering, no spaces, with serde_json's string escaping. -/

def lbrace : Char := Char.ofNat 123

def rbrace : Char := Char.ofNat 125

def hexChar : Nat → Char
  | 10 => 'a'
  | 11 => 'b'
  | 12 => 'c'
  | 13 => 'd'
  | 14 => 'e'
  | 15 => 'f'
  | n => digitChar n

/-- serde_json's string escaping: quote and backslash escaped, control
characters as their short escapes or `\u00XX`. -/
def escapeChar (c : Char) : List Char :=
  if c = '"' then ['\\', '"']
  else if c = '\\' then ['\\', '\\']
  else if c.toNat = 8 then ['\\', 'b']
  else if c.toNat = 9 then ['\\', 't']
  else if c.toNat = 10 then ['\\', 'n']
  else if c.toNat = 12 then ['\\', 'f']
  else if c.toNat = 13 then ['\\', 'r']
  else if c.toNat < 32 then ['\\', 'u', '0', '0', digitChar (c.toNat / 16), hexChar (c.toNat % 16)]
  else [c]

def renderString (s : String) : List Char :=
  '"' :: ((s.data.map escapeChar).flatten ++ ['"'])

def renderNat (n : Nat) : List Char := Nat.toDigits 10 n

def renderInt (n : Int) : List Char :=
  if n < 0 then '-' :: renderNat n.natAbs else renderNat n.natAbs

mutual
def renderJson : Json → List Char
  | Json.str s => renderString s
  | Json.num n => renderInt n
  | Json.bool b => if b then ['t', 'r', 'u', 'e'] else ['f', 'a', 'l', 's', 'e']
  | Json.null => ['n', 'u', 'l', 'l']
  | Json.obj fs => lbrace :: (renderFields fs ++ [rbrace])
  | Json.arr es => '[' :: (renderElems es ++ [']'])
def renderFields : JFields → List Char
  | JFields.nil => []
  | JFields.cons k v JFields.nil => renderString k ++ ':' :: renderJson v
  | JFields.cons k v (JFields.cons k2 v2 rest) =>
    renderString k ++ ':' :: (renderJson v ++ ',' :: renderFields (JFields.cons k2 v2 rest))
def renderElems : JElems → List Char
  | JElems.nil => []
  | JElems.cons v JElems.nil => renderJson v
  | JElems.cons v (JElems.cons v2 rest) => renderJson v ++ ',' :: renderElems (JElems.cons v2 rest)
end

/-! ### Kafka stream consumer (event-stream-kafka/src/lib.rs)

`start_consumer` loops: poll a batch of message sets; for each message apply
the three `String::replace` calls, deserialize, apply; after a fully processed
set `consume_messageset` marks it locally; after all sets of the poll
`commit_consumed` pushes the marks to the broker.  Any failure returns from the
function (dropping local marks — the outer `retry` builds a fresh consumer that
resumes from the last *committed* offset). -/

/-- Rust's `str::replace`: leftmost non-overlapping occurrences of `pat`
replaced by `rep`. -/
def replaceAll (pat rep : List Char) : List Char → List Char
  | [] => []
  | c :: rest =>
    if h : pat ≠ [] ∧ pat.isPrefixOf (c :: rest) = true then
      rep ++ replaceAll pat rep ((c :: rest).drop pat.length)
    else
      c :: replaceAll pat rep rest
termination_by s => s.length
decreasing_by
  · simp only [List.length_drop, List.length_cons]
    have h1 : 1 ≤ pat.length := by
      cases pat with
      | nil => exact absurd rfl h.1
      | cons a l => simp
    omega
  · simp

/-- Scanning check that `pat` occurs as a contiguous substring of `s`. -/
def containsSeq (pat : List Char) : List Char → Bool
  | [] => pat.isPrefixOf ([] : List Char)
  | c :: rest => pat.isPrefixOf (c :: rest) || containsSeq pat rest

/-- The first replaced pattern, `\"` (Rust literal `"\\\""`). -/
def pat1 : List Char := ['\\', '"']

def rep1 : List Char := ['"']

/-- The second replaced pattern, `"{` (Rust literal `"\"{"`). -/
def pat2 : List Char := ['"', lbrace]

def rep2 : List Char := [lbrace]

/-- The third replaced pattern, `}"` (Rust literal `"}\""`). -/
def pat3 : List Char := [rbrace, '"']

def rep3 : List Char := [rbrace]

/-- The consumer's ad hoc pre-deserialization payload rewrite: the three
`replace` calls of lib.rs lines 68-72 in source order. -/
def mangle (s : List Char) : List Char :=
  replaceAll pat3 rep3 (replaceAll pat2 rep2 (replaceAll pat1 rep1 s))

/-- Embedding of the per-message body of `start_consumer` (lib.rs lines 67-76):
payload text → the three `replace` calls → `deserialize` → `apply`, each `?`
aborting the batch.  `dec` stands for `deserialize` over the wire text (the
serde_json string layer, external to this crate) and `apply` for the supplied
application function. -/
def consumeMessage {Event : Type} (dec : List Char → Except String (EventEnvelope Event))
    (apply : EventEnvelope Event → Except String Unit) (raw : List Char) :
    Except String Unit :=
  match dec (replaceAll pat3 rep3 (replaceAll pat2 rep2 (replaceAll pat1 rep1 raw))) with
  | Except.ok env => apply env
  | Except.error err => Except.error err

/-- The broker-side state the consumer interacts with: the partition log and
the committed group offset. -/
structure KafkaBroker where
  log : List (List Char)
  committed : Nat
deriving DecidableEq

/-- A fresh consumer (`GroupOffsetStorage::Kafka`) polls the messages after the
last committed offset. -/
def poll (b : KafkaBroker) : List (List Char) := b.log.drop b.committed

/-- The inner message loop over one message set: process messages in order,
first failure aborts. -/
def processSet (pm : List Char → Except String Unit) : List (List Char) → Except String Unit
  | [] => Except.ok ()
  | m :: rest =>
    match pm m with
    | Except.ok _ => processSet pm rest
    | Except.error e => Except.error e

/-- The loop over the message sets of one poll, accumulating the count of
locally consumed (`consume_messageset`) messages. -/
def processSets (pm : List Char → Except String Unit) :
    List (List (List Char)) → Nat → Except String Nat
  | [], n => Except.ok n
  | set :: rest, n =>
    match processSet pm set with
    | Except.ok _ => processSets pm rest (n + set.length)
    | Except.error e => Except.error e

/-- One poll cycle of `start_consumer`: on success `commit_consumed` advances
the broker's committed offset by every consumed message; on failure the
function returns the error before `commit_consumed`, so the broker state is
unchanged.  `sets` is the broker-chosen grouping of the polled messages into
message sets. -/
def runCycle (pm : List Char → Except String Unit) (b : KafkaBroker)
    (sets : List (List (List Char))) : KafkaBroker × Option String :=
  match processSets pm sets 0 with
  | Except.ok n => (KafkaBroker.mk b.log (b.committed + n), none)
  | Except.error e => (b, some e)

/-- Embedding of `KafkaEventStreamError` (lib.rs lines 26-30): every failure of
the consumer closure reaches the `retry` combinator only as `InternalError`
around a formatted message. -/
inductive KafkaEventStreamError where
  | internalError (msg : String)
deriving DecidableEq

/-- One attempt of the closure `on_event` hands to `retry` (lib.rs lines
38-49): build a consumer and run it; a failing cycle surfaces as
`InternalError`.  The source loop never returns on success (it polls forever);
the embedding observes a single poll cycle per attempt, which suffices for the
error-path claims. -/
def onEventAttempt (pm : List Char → Except String Unit) (b : KafkaBroker)
    (sets : List (List (List Char))) : Except KafkaEventStreamError Unit :=
  match runCycle pm b sets with
  | (_, some e) => Except.error (KafkaEventStreamError.internalError e)
  | (_, none) => Except.ok ()

/-- The `retry(Fixed::from_millis(1000), op)` combinator of the `retry` crate
with its infinite fixed-delay iterator: every `Err` is retried after the delay.
`fuel` bounds how many attempts we observe; the `none` outcome means the loop
is still retrying (it never gives up, since `Fixed` is an infinite iterator).
The trace records the error of every failed attempt. -/
def retryTrace {A : Type} : Nat → (Nat → Except KafkaEventStreamError A) →
    List KafkaEventStreamError × Option A
  | 0, _ => ([], none)
  | fuel + 1, op =>
    match op 0 with
    | Except.ok a => ([], some a)
    | Except.error e =>
      let r := retryTrace fuel (fun k => op (k + 1))
      (e :: r.1, r.2)

/-! ### Event store and snapshot store models

The `EventStore` and `SnapshotStore` traits (event/store.rs, snapshot/store.rs)
are pure contracts and the only implementation in the repository,
`CassandraEventStore` (event-store-cassandra/src/event/store.rs), is `todo!()`
in every method.  The behavioural claims about them are therefore settled
against models built from the spec's contract language (sections 4.3 and 4.4). -/

/-- The spec's failure taxonomy for the store contracts (spec sections 4.3
and 7). -/
inductive StoreError where
  | notFound
  | versionConflict
  | storageUnavailable
  | serialization
deriving DecidableEq

/-- Modelled from the spec: the durable per-aggregate event streams behind the
`EventStore` contract, as the append-ordered log of every persisted envelope
(`CassandraEventStore`'s methods are `todo!()`, so the contract of spec
section 4.3 is the authority). -/
abbrev ModelEventStore (Event : Type) : Type := List (EventEnvelope Event)

/-- Modelled from the spec: `EventStore::read` — the full history of one
aggregate id, in append order. -/
def readStore {Event : Type} (st : ModelEventStore Event) (aggregate_id : String) :
    List (EventEnvelope Event) :=
  st.filter (fun e => e.aggregate_id == aggregate_id)

/-- Modelled from the spec: `EventStore::read_from` — the history from the
given version (inclusive) onward. -/
def read_from {Event : Type} (st : ModelEventStore Event) (aggregate_id : String)
    (version : Int) : List (EventEnvelope Event) :=
  (readStore st aggregate_id).dropWhile (fun e => decide (e.version < version))

/-- Modelled from the spec: `EventStore::persist` — append one envelope,
enforcing the optimistic-concurrency check: a write to an already occupied
stream position fails with `VersionConflict` and leaves the store unchanged. -/
def persistStore {Event : Type} (st : ModelEventStore Event)
    (env : EventEnvelope Event) : Except StoreError (ModelEventStore Event) :=
  if (readStore st env.aggregate_id).any (fun e => e.version == env.version) then
    Except.error StoreError.versionConflict
  else
    Except.ok (st ++ [env])

/-- Embedding of `SnapshotEnvelope<Aggregate>` (snapshot/envelope.rs lines
9-28): the identity/versioning shape of `EventEnvelope` with a materialized
aggregate state as `data` and no `event_type` field. -/
structure SnapshotEnvelope (Aggregate : Type) where
  id : String
  aggregate_id : String
  aggregate_type : String
  data : Aggregate
  version : Int
  timestamp : UtcTimestamp
deriving DecidableEq

/-- Modelled from the spec: the state behind the `SnapshotStore` contract
(spec section 4.4; no implementation of the trait exists in the repository),
as the append-ordered log of persisted snapshots. -/
abbrev ModelSnapshotStore (Aggregate : Type) : Type := List (SnapshotEnvelope Aggregate)

/-- Modelled from the spec: `SnapshotStore::read` — the latest (most recently
persisted) snapshot of the aggregate, `NotFound` when none exists. -/
def snapshotRead {Aggregate : Type} (st : ModelSnapshotStore Aggregate)
    (aggregate_id : String) : Except StoreError (SnapshotEnvelope Aggregate) :=
  match (st.filter (fun s => s.aggregate_id == aggregate_id)).getLast? with
  | some s => Except.ok s
  | none => Except.error StoreError.notFound

/-- Modelled from the spec: `SnapshotStore::persist` — store the snapshot as
the new latest one for its aggregate id. -/
def snapshotPersist {Aggregate : Type} (st : ModelSnapshotStore Aggregate)
    (env : SnapshotEnvelope Aggregate) : ModelSnapshotStore Aggregate :=
  st ++ [env]

/-! ### Concrete test fixtures (the repository's own doc-test types) -/

/-- The `TestEvent` payload of the repository's tests. -/
structure TestEvent where
  id : String
  amount : Int
deriving DecidableEq

/-- The `TestAggregate` of the repository's tests. -/
structure TestAggregate where
  id : String
  total : Int
deriving DecidableEq

/-- `TestAggregate::apply` from the doc example of aggregate.rs and the test
implementation in snapshot/envelope.rs. -/
def TestAggregate.apply (state : Option TestAggregate) (event : TestEvent) :
    Except String TestAggregate :=
  match state with
  | none => Except.ok (TestAggregate.mk event.id event.amount)
  | some st => Except.ok (TestAggregate.mk st.id (st.total + event.amount))

/-- Derived JSON encoder of `TestEvent`. -/
def encTestEvent (e : TestEvent) : Json :=
  Json.obj (JFields.cons ("id") (Json.str e.id)
    (JFields.cons ("amount") (Json.num e.amount) JFields.nil))

/-- Derived JSON decoder of `TestEvent`. -/
def decTestEvent (j : Json) : Option TestEvent := do
  let idJ ← j.getField ("id")
  let idS ← idJ.asStr
  let amJ ← j.getField ("amount")
  let amI ← amJ.asInt
  some (TestEvent.mk idS amI)

def ev1 : TestEvent := TestEvent.mk ("2e996ba1-03a6-47af-8fd1-2039c6708dd4") 1

def ev2 : TestEvent := TestEvent.mk ("2e996ba1-03a6-47af-8fd1-2039c6708dd4") 5

def tsSample : UtcTimestamp := UtcTimestamp.mk 2022 12 28 3 52 22 782613772

def envSample : EventEnvelope TestEvent :=
  EventEnvelope.mk ("17401eba-ff5d-4c3c-9818-c603fe640cb5") ("aggregate_id")
    ("TestAggregate") ev1 ("TestEvent") 0 tsSample

def envSample2 : EventEnvelope TestEvent :=
  EventEnvelope.mk ("352c182d-9002-4a0c-b9f8-96c8cb2ff90f") ("aggregate_id")
    ("TestAggregate") ev2 ("TestEvent") 0 tsSample

def snapSample : SnapshotEnvelope TestAggregate :=
  SnapshotEnvelope.mk ("352c182d-9002-4a0c-b9f8-96c8cb2ff90f") ("aggregate_id")
    ("TestAggregate") (TestAggregate.mk ("2e996ba1-03a6-47af-8fd1-2039c6708dd4") 1)
    0 tsSample

/-- A decoder standing in for serde_json on the wire text in the consumer
witnesses: fails on the payload `b`, succeeds otherwise. -/
def decW : List Char → Except String (EventEnvelope TestEvent) :=
  fun s => if s = ['b'] then Except.error ("invalid payload") else Except.ok envSample

def applyW : EventEnvelope TestEvent → Except String Unit := fun _ => Except.ok ()

def pmW : List Char → Except String Unit := consumeMessage decW applyW

def brokerW : KafkaBroker := KafkaBroker.mk [['a'], ['b'], ['c']] 0

def setsW : List (List (List Char)) := [[['a'], ['b']], [['c']]]

/-- A decoder standing in for serde_json that always reports a serialization
failure, for the retry-loop scenario. -/
def decBad : List Char → Except String (EventEnvelope TestEvent) :=
  fun _ => Except.error ("SerializationError: malformed envelope")

def pmBad : List Char → Except String Unit := consumeMessage decBad applyW

def brokerBad : KafkaBroker := KafkaBroker.mk [['x']] 0

def setsBad : List (List (List Char)) := [[['x']]]

/-! ## Supporting lemmas -/

theorem dataMk (l : List Char) : (String.mk l).data = l := rfl

theorem applyFoldStep_ne_ok_none {σ ε : Type} (apply : Option σ → ε → Except String σ)
    (st : Except String (Option σ)) (e : ε) (h : st ≠ Except.ok none) :
    applyFoldStep apply st e ≠ Except.ok none := by
  match st with
  | Except.error m => simp [applyFoldStep]
  | Except.ok none => exact absurd rfl h
  | Except.ok (some s) =>
    simp only [applyFoldStep]
    cases apply (some s) e <;> simp [Except.map]

theorem foldl_applyFoldStep_ne_ok_none {σ ε : Type} (apply : Option σ → ε → Except String σ) :
    ∀ (L : List ε) (init : Except String (Option σ)), init ≠ Except.ok none →
      L.foldl (applyFoldStep apply) init ≠ Except.ok none := by
  intro L
  induction L with
  | nil => intro init h; simpa using h
  | cons e L ih =>
    intro init h
    simp only [List.foldl_cons]
    exact ih _ (applyFoldStep_ne_ok_none apply init e h)

theorem foldl_applyFoldStep_nonempty {σ ε : Type} (apply : Option σ → ε → Except String σ)
    (e : ε) (L : List ε) :
    (e :: L).foldl (applyFoldStep apply) (Except.ok none) ≠ Except.ok none := by
  simp only [List.foldl_cons]
  apply foldl_applyFoldStep_ne_ok_none
  simp only [applyFoldStep]
  cases apply none e <;> simp [Except.map]

theorem decTestEvent_encTestEvent (d : TestEvent) : decTestEvent (encTestEvent d) = some d := rfl

theorem replaceAll_nil (pat rep : List Char) : replaceAll pat rep [] = [] := by
  simp [replaceAll]

theorem replaceAll_cons_pos (pat rep : List Char) (c : Char) (rest : List Char)
    (h : pat ≠ [] ∧ pat.isPrefixOf (c :: rest) = true) :
    replaceAll pat rep (c :: rest) =
      rep ++ replaceAll pat rep ((c :: rest).drop pat.length) := by
  rw [replaceAll]
  simp only [dif_pos h]

theorem replaceAll_cons_neg (pat rep : List Char) (c : Char) (rest : List Char)
    (h : ¬(pat ≠ [] ∧ pat.isPrefixOf (c :: rest) = true)) :
    replaceAll pat rep (c :: rest) = c :: replaceAll pat rep rest := by
  rw [replaceAll]
  simp only [dif_neg h]

theorem isPrefixOf_length_le :
    ∀ (p s : List Char), p.isPrefixOf s = true → p.length ≤ s.length := by
  intro p
  induction p with
  | nil => intro s _; simp
  | cons a p' ih =>
    intro s h
    cases s with
    | nil => simp [List.isPrefixOf] at h
    | cons b s' =>
      simp only [List.isPrefixOf, Bool.and_eq_true] at h
      have := ih s' h.2
      simp only [List.length_cons]
      omega

theorem replaceAll_of_not_contains (pat rep : List Char) :
    ∀ s : List Char, containsSeq pat s = false → replaceAll pat rep s = s := by
  intro s
  induction s with
  | nil => intro _; exact replaceAll_nil pat rep
  | cons c rest ih =>
    intro h
    simp only [containsSeq, Bool.or_eq_false_iff] at h
    rw [replaceAll_cons_neg pat rep c rest (by simp [h.1])]
    rw [ih h.2]

theorem length_replaceAll_le (pat rep : List Char) (hrep : rep.length ≤ pat.length)
    (s : List Char) : (replaceAll pat rep s).length ≤ s.length := by
  have H : ∀ (n : Nat) (s : List Char), s.length ≤ n →
      (replaceAll pat rep s).length ≤ s.length := by
    intro n
    induction n with
    | zero =>
      intro s hs
      match s with
      | [] => simp [replaceAll_nil]
      | c :: rest => simp at hs
    | succ n ih =>
      intro s hs
      match s with
      | [] => simp [replaceAll_nil]
      | c :: rest =>
        by_cases h : pat ≠ [] ∧ pat.isPrefixOf (c :: rest) = true
        · rw [replaceAll_cons_pos pat rep c rest h]
          have hplen : pat.length ≤ (c :: rest).length := isPrefixOf_length_le pat _ h.2
          have hpat1 : 1 ≤ pat.length := by
            cases hp : pat with
            | nil => exact absurd hp h.1
            | cons a l => simp
          have hih := ih ((c :: rest).drop pat.length)
            (by simp only [List.length_drop, List.length_cons] at *; omega)
          simp only [List.length_append, List.length_drop, List.length_cons] at *
          omega
        · rw [replaceAll_cons_neg pat rep c rest h]
          have hih := ih rest (by simp only [List.length_cons] at hs; omega)
          simp only [List.length_cons]
          omega
  exact H s.length s le_rfl

theorem length_replaceAll_lt (pat rep : List Char) (hrep : rep.length < pat.length)
    (s : List Char) (hc : containsSeq pat s = true) :
    (replaceAll pat rep s).length < s.length := by
  have hpat : pat ≠ [] := by
    intro hp
    subst hp
    simp at hrep
  have H : ∀ (n : Nat) (s : List Char), s.length ≤ n → containsSeq pat s = true →
      (replaceAll pat rep s).length < s.length := by
    intro n
    induction n with
    | zero =>
      intro s hs hcs
      match s with
      | [] =>
        simp only [containsSeq] at hcs
        have := isPrefixOf_length_le pat [] hcs
        cases hp : pat with
        | nil => exact absurd hp hpat
        | cons a l => rw [hp] at this; simp at this
      | c :: rest => simp at hs
    | succ n ih =>
      intro s hs hcs
      match s with
      | [] =>
        simp only [containsSeq] at hcs
        have := isPrefixOf_length_le pat [] hcs
        cases hp : pat with
        | nil => exact absurd hp hpat
        | cons a l => rw [hp] at this; simp at this
      | c :: rest =>
        by_cases h : pat ≠ [] ∧ pat.isPrefixOf (c :: rest) = true
        · rw [replaceAll_cons_pos pat rep c rest h]
          have hplen : pat.length ≤ (c :: rest).length := isPrefixOf_length_le pat _ h.2
          have hle := length_replaceAll_le pat rep (by omega) ((c :: rest).drop pat.length)
          simp only [List.length_append, List.length_drop, List.length_cons] at *
          omega
        · rw [replaceAll_cons_neg pat rep c rest h]
          have hpref : pat.isPrefixOf (c :: rest) = false := by
            by_cases hb : pat.isPrefixOf (c :: rest) = true
            · exact absurd ⟨hpat, hb⟩ h
            · exact Bool.eq_false_iff.mpr hb
          simp only [containsSeq, hpref, Bool.false_or] at hcs
          have hih := ih rest (by simp only [List.length_cons] at hs; omega) hcs
          simp only [List.length_cons]
          omega
  exact H s.length s le_rfl hc

theorem processSet_append (pm : List Char → Except String Unit) (l1 l2 : List (List Char)) :
    processSet pm (l1 ++ l2) =
      match processSet pm l1 with
      | Except.ok _ => processSet pm l2
      | Except.error e => Except.error e := by
  induction l1 with
  | nil => simp [processSet]
  | cons m rest ih =>
    simp only [List.cons_append, processSet]
    cases pm m with
    | ok u => exact ih
    | error e => rfl

theorem processSets_eq_flatten (pm : List Char → Except String Unit) :
    ∀ (sets : List (List (List Char))) (n : Nat),
      processSets pm sets n =
        match processSet pm sets.flatten with
        | Except.ok _ => Except.ok (n + sets.flatten.length)
        | Except.error e => Except.error e := by
  intro sets
  induction sets with
  | nil => intro n; simp [processSets, processSet]
  | cons set rest ih =>
    intro n
    simp only [processSets, List.flatten_cons, processSet_append]
    cases hset : processSet pm set with
    | ok u =>
      rw [ih (n + set.length)]
      cases processSet pm rest.flatten with
      | ok u2 =>
        simp only [List.length_append]
        congr 1
        omega
      | error e => rfl
    | error e => rfl

theorem mangle_of_clean (s : List Char) (h1 : containsSeq pat1 s = false)
    (h2 : containsSeq pat2 s = false) (h3 : containsSeq pat3 s = false) :
    mangle s = s := by
  unfold mangle
  rw [replaceAll_of_not_contains pat1 rep1 _ h1,
    replaceAll_of_not_contains pat2 rep2 _ h2,
    replaceAll_of_not_contains pat3 rep3 _ h3]

theorem consumeMessage_eq_mangle {Event : Type}
    (dec : List Char → Except String (EventEnvelope Event))
    (apply : EventEnvelope Event → Except String Unit) (raw : List Char) :
    consumeMessage dec apply raw =
      match dec (mangle raw) with
      | Except.ok env => apply env
      | Except.error err => Except.error err := rfl

theorem pmW_a : pmW ['a'] = Except.ok () := by
  show consumeMessage decW applyW ['a'] = Except.ok ()
  rw [consumeMessage_eq_mangle, mangle_of_clean ['a'] (by decide) (by decide) (by decide)]
  simp [decW, applyW]

theorem pmW_b : pmW ['b'] = Except.error ("invalid payload") := by
  show consumeMessage decW applyW ['b'] = Except.error ("invalid payload")
  rw [consumeMessage_eq_mangle, mangle_of_clean ['b'] (by decide) (by decide) (by decide)]
  simp [decW]

theorem charVal_digitChar {d : Nat} (h : d < 10) : charVal (digitChar d) = some d := by
  interval_cases d <;> decide

theorem padChars_length : ∀ (k n : Nat), (padChars k n).length = k := by
  intro k
  induction k with
  | zero => intro n; rfl
  | succ k ih => intro n; simp [padChars, ih]

theorem parseFixed_padChars :
    ∀ (k n : Nat), n < 10 ^ k → ∀ s : List Char,
      parseFixed k (padChars k n ++ s) = some (n, s) := by
  intro k
  induction k with
  | zero =>
    intro n hn s
    rw [pow_zero] at hn
    have h0 : n = 0 := by omega
    subst h0
    simp [padChars, parseFixed]
  | succ k ih =>
    intro n hn s
    have hpow : (10 : Nat) ^ (k + 1) = 10 ^ k * 10 := pow_succ 10 k
    have hpos : 0 < (10 : Nat) ^ k := by positivity
    have hdiv : n / 10 ^ k < 10 := by
      rw [Nat.div_lt_iff_lt_mul hpos]
      omega
    have hmod : n % 10 ^ k < 10 ^ k := Nat.mod_lt _ hpos
    have hdm : n / 10 ^ k * 10 ^ k + n % 10 ^ k = n := Nat.div_add_mod' n (10 ^ k)
    simp only [padChars, List.cons_append, List.append_eq, parseFixed,
      charVal_digitChar hdiv, ih (n % 10 ^ k) hmod s]
    rw [hdm]

theorem expectChar_cons_self (c : Char) (s : List Char) :
    expectChar c (c :: s) = some s := by
  simp [expectChar]

theorem padChars_isDigit :
    ∀ (k n : Nat), n < 10 ^ k → ∀ c ∈ padChars k n, isDigitCharB c = true := by
  intro k
  induction k with
  | zero => intro n hn c hc; simp [padChars] at hc
  | succ k ih =>
    intro n hn c hc
    have hpow : (10 : Nat) ^ (k + 1) = 10 ^ k * 10 := pow_succ 10 k
    have hpos : 0 < (10 : Nat) ^ k := by positivity
    have hdiv : n / 10 ^ k < 10 := by
      rw [Nat.div_lt_iff_lt_mul hpos]
      omega
    simp only [padChars, List.mem_cons] at hc
    rcases hc with hc | hc
    · subst hc
      simp [isDigitCharB, charVal_digitChar hdiv]
    · exact ih (n % 10 ^ k) (Nat.mod_lt _ hpos) c hc

theorem takeWhile_eq_of (p : Char → Bool) :
    ∀ (l r : List Char), (∀ c ∈ l, p c = true) →
      (∀ c, r.head? = some c → p c = false) →
      (l ++ r).takeWhile p = l := by
  intro l
  induction l with
  | nil =>
    intro r _ hr
    cases r with
    | nil => simp
    | cons c r' =>
      have := hr c rfl
      simp [List.takeWhile_cons, this]
  | cons x xs ih =>
    intro r hl hr
    have hx : p x = true := hl x (by simp)
    have hrec := ih r (fun c hc => hl c (by simp [hc])) hr
    simp only [List.cons_append, List.takeWhile_cons, hx, if_true]
    rw [hrec]

theorem parseFrac_fracChars (ns : Nat) (h : ns < 1000000000) :
    ∀ rest : List Char, parseFrac (fracChars ns ++ 'Z' :: rest) = some (ns, 'Z' :: rest) := by
  intro rest
  have hZ : ∀ c : Char, ('Z' :: rest).head? = some c → isDigitCharB c = false := by
    intro c hc
    simp only [List.head?_cons, Option.some.injEq] at hc
    rw [← hc]
    decide
  by_cases h0 : ns = 0
  · subst h0
    rw [show fracChars 0 = [] from rfl, List.nil_append]
    simp only [parseFrac]
    rw [if_neg (by decide)]
  · by_cases h6 : ns % 1000000 = 0
    · have hfc : fracChars ns = '.' :: padChars 3 (ns / 1000000) := by
        simp [fracChars, h0, h6]
      have hm : ns / 1000000 < 10 ^ 3 := by
        have hp : (10 : Nat) ^ 3 = 1000 := by norm_num
        omega
      rw [hfc]
      simp only [List.cons_append, parseFrac, if_true]
      have htw : ((padChars 3 (ns / 1000000) ++ 'Z' :: rest).takeWhile isDigitCharB) =
          padChars 3 (ns / 1000000) :=
        takeWhile_eq_of isDigitCharB _ _ (padChars_isDigit 3 _ hm) hZ
      rw [htw, padChars_length]
      rw [if_pos (by norm_num)]
      rw [parseFixed_padChars 3 _ hm ('Z' :: rest)]
      have hval : ns / 1000000 * 10 ^ (9 - 3) = ns := by
        have hp : (10 : Nat) ^ (9 - 3) = 1000000 := by norm_num
        rw [hp]
        omega
      simp only [hval]
    · by_cases h3 : ns % 1000 = 0
      · have hfc : fracChars ns = '.' :: padChars 6 (ns / 1000) := by
          simp [fracChars, h0, h6, h3]
        have hm : ns / 1000 < 10 ^ 6 := by
          have hp : (10 : Nat) ^ 6 = 1000000 := by norm_num
          omega
        rw [hfc]
        simp only [List.cons_append, parseFrac, if_true]
        have htw : ((padChars 6 (ns / 1000) ++ 'Z' :: rest).takeWhile isDigitCharB) =
            padChars 6 (ns / 1000) :=
          takeWhile_eq_of isDigitCharB _ _ (padChars_isDigit 6 _ hm) hZ
        rw [htw, padChars_length]
        rw [if_pos (by norm_num)]
        rw [parseFixed_padChars 6 _ hm ('Z' :: rest)]
        have hval : ns / 1000 * 10 ^ (9 - 6) = ns := by
          have hp : (10 : Nat) ^ (9 - 6) = 1000 := by norm_num
          rw [hp]
          omega
        simp only [hval]
      · have hfc : fracChars ns = '.' :: padChars 9 ns := by
          simp [fracChars, h0, h6, h3]
        have hm : ns < 10 ^ 9 := by
          have hp : (10 : Nat) ^ 9 = 1000000000 := by norm_num
          omega
        rw [hfc]
        simp only [List.cons_append, parseFrac, if_true]
        have htw : ((padChars 9 ns ++ 'Z' :: rest).takeWhile isDigitCharB) =
            padChars 9 ns :=
          takeWhile_eq_of isDigitCharB _ _ (padChars_isDigit 9 _ hm) hZ
        rw [htw, padChars_length]
        rw [if_pos (by norm_num)]
        rw [parseFixed_padChars 9 _ hm ('Z' :: rest)]
        have hval : ns * 10 ^ (9 - 9) = ns := by
          norm_num
        simp only [hval]

theorem parseTimestamp_formatTimestamp (t : UtcTimestamp) (h : TsWF t) :
    parseTimestamp (formatTimestamp t) = some t := by
  obtain ⟨y, mo, d, hr, mi, se, ns⟩ := t
  simp only [TsWF] at h
  obtain ⟨h1, h2, h3, h4, h5, h6, h7, h8, h9⟩ := h
  have hy : y < 10 ^ 4 := by
    have hp : (10 : Nat) ^ 4 = 10000 := by norm_num
    omega
  have hmo : mo < 10 ^ 2 := by
    have hp : (10 : Nat) ^ 2 = 100 := by norm_num
    omega
  have hd : d < 10 ^ 2 := by
    have hp : (10 : Nat) ^ 2 = 100 := by norm_num
    omega
  have hhr : hr < 10 ^ 2 := by
    have hp : (10 : Nat) ^ 2 = 100 := by norm_num
    omega
  have hmi : mi < 10 ^ 2 := by
    have hp : (10 : Nat) ^ 2 = 100 := by norm_num
    omega
  have hse : se < 10 ^ 2 := by
    have hp : (10 : Nat) ^ 2 = 100 := by norm_num
    omega
  simp only [formatTimestamp, formatBody, List.append_assoc, List.cons_append,
    parseTimestamp, parseFixed_padChars 4 y hy, parseFixed_padChars 2 mo hmo,
    parseFixed_padChars 2 d hd, parseFixed_padChars 2 hr hhr,
    parseFixed_padChars 2 mi hmi, parseFixed_padChars 2 se hse,
    expectChar_cons_self, parseFrac_fracChars ns h9, List.isEmpty_nil, if_true]

theorem deserialize_serialize_envelope {Event : Type} (encE : Event → Json)
    (decE : Json → Option Event) (hE : ∀ dv : Event, decE (encE dv) = some dv)
    (e : EventEnvelope Event) (hts : TsWF e.timestamp) :
    deserializeEnvelope decE (serializeEnvelope encE e) = some e := by
  obtain ⟨i, aid, aty, da, ety, ver, ts⟩ := e
  simp only [serializeEnvelope, deserializeEnvelope, Json.getField, JFields.lookupField,
    Json.asStr, Json.asInt, Option.some_bind, dataMk, hE, String.reduceEq,
    if_true, if_false, parseTimestamp_formatTimestamp ts hts]

theorem head?_dropWhile_false {α : Type} (p : α → Bool) :
    ∀ (l : List α) (a : α), (l.dropWhile p).head? = some a → p a = false := by
  intro l
  induction l with
  | nil => intro a h; simp [List.dropWhile] at h
  | cons x xs ih =>
    intro a h
    by_cases hp : p x
    · rw [List.dropWhile_cons_of_pos hp] at h
      exact ih a h
    · rw [List.dropWhile_cons_of_neg hp] at h
      simp only [List.head?_cons, Option.some.injEq] at h
      rw [← h]
      exact Bool.eq_false_iff.mpr hp

theorem retryTrace_const_error {A : Type} (x : KafkaEventStreamError) :
    ∀ (fuel : Nat) (op : Nat → Except KafkaEventStreamError A),
      (∀ k, op k = Except.error x) →
      retryTrace fuel op = (List.replicate fuel x, none) := by
  intro fuel
  induction fuel with
  | zero => intro op hop; simp [retryTrace]
  | succ n ih =>
    intro op hop
    simp only [retryTrace, hop 0]
    rw [ih (fun k => op (k + 1)) (fun k => hop (k + 1))]
    simp [List.replicate_succ]

/-! ## Claim theorems -/

/-- Claim C1: for every non-empty ordered list of events L, `apply_all L`
equals folding `apply` left-to-right over L starting from the state `none`
(it returns `ok s` exactly when the fold ends in `ok (some s)` and propagates
exactly the fold's error), and `apply_all` is deterministic: two runs on the
same list yield equal results (it is a pure function of its input). -/
theorem claim_C1 {σ ε : Type} (apply : Option σ → ε → Except String σ)
    (L : List ε) (hL : L ≠ []) :
    (∀ s : σ, apply_all apply L = Except.ok s ↔
        L.foldl (applyFoldStep apply) (Except.ok none) = Except.ok (some s))
    ∧ (∀ msg : String, apply_all apply L = Except.error msg ↔
        L.foldl (applyFoldStep apply) (Except.ok none) = Except.error msg)
    ∧ apply_all apply L = apply_all apply L := by
  match L with
  | [] => exact absurd rfl hL
  | e :: L' =>
    have hne := foldl_applyFoldStep_nonempty apply e L'
    refine ⟨?_, ?_, rfl⟩
    · intro s
      unfold apply_all
      cases hfold : (e :: L').foldl (applyFoldStep apply) (Except.ok none) with
      | ok os =>
        cases os with
        | none => exact absurd hfold hne
        | some v => simp
      | error m => simp
    · intro msg
      unfold apply_all
      cases hfold : (e :: L').foldl (applyFoldStep apply) (Except.ok none) with
      | ok os =>
        cases os with
        | none => exact absurd hfold hne
        | some v => simp
      | error m => simp

/-- Witness for C1 at the repository's own test fixture (two `TestEvent`s). -/
theorem claim_C1_witness :
    (∀ s : TestAggregate, apply_all TestAggregate.apply [ev1, ev2] = Except.ok s ↔
        ([ev1, ev2] : List TestEvent).foldl (applyFoldStep TestAggregate.apply)
          (Except.ok none) = Except.ok (some s))
    ∧ (∀ msg : String, apply_all TestAggregate.apply [ev1, ev2] = Except.error msg ↔
        ([ev1, ev2] : List TestEvent).foldl (applyFoldStep TestAggregate.apply)
          (Except.ok none) = Except.error msg)
    ∧ apply_all TestAggregate.apply [ev1, ev2] = apply_all TestAggregate.apply [ev1, ev2] :=
  claim_C1 TestAggregate.apply [ev1, ev2] (by simp)

/-- Claim C3: for every `EventEnvelope` over a serializable event payload
(one whose own codec round-trips), deserializing the serialization succeeds
and reproduces the envelope exactly — `aggregate_id`, `aggregate_type`,
`event_type`, `version`, `data`, and also `id` and `timestamp` decode to the
same values as encoded; the encoded timestamp string carries the full
nanosecond (hence at least millisecond) value and ends with the fixed UTC
offset letter `Z`. -/
theorem claim_C3 {Event : Type} (encE : Event → Json) (decE : Json → Option Event)
    (hE : ∀ dv : Event, decE (encE dv) = some dv)
    (e : EventEnvelope Event) (hts : TsWF e.timestamp) :
    deserializeEnvelope decE (serializeEnvelope encE e) = some e
    ∧ parseTimestamp (formatTimestamp e.timestamp) = some e.timestamp
    ∧ (formatTimestamp e.timestamp).getLast? = some 'Z' := by
  refine ⟨deserialize_serialize_envelope encE decE hE e hts,
    parseTimestamp_formatTimestamp e.timestamp hts, ?_⟩
  unfold formatTimestamp
  exact List.getLast?_concat _

/-- Witness for C3 at the repository's sample envelope and `TestEvent`
codec. -/
theorem claim_C3_witness :
    deserializeEnvelope decTestEvent (serializeEnvelope encTestEvent envSample) =
        some envSample
    ∧ parseTimestamp (formatTimestamp envSample.timestamp) = some envSample.timestamp
    ∧ (formatTimestamp envSample.timestamp).getLast? = some 'Z' :=
  claim_C3 encTestEvent decTestEvent decTestEvent_encTestEvent envSample (by decide)

/-- Counterexample for claim C2 as stated: on the empty list `apply_all` does
fail, but the error's message is "Aggregate must not be None"; it does not
state that the aggregate "must not be empty" (that wording occurs nowhere in
it). -/
theorem claim_C2_counterexample :
    apply_all TestAggregate.apply ([] : List TestEvent) =
        Except.error ("Aggregate must not be None")
    ∧ containsSeq ("must not be empty").data ("Aggregate must not be None").data = false :=
  ⟨rfl, by decide⟩

/-- Claim C2 (amended): `apply_all` applied to the empty event list returns an
error whose message is "Aggregate must not be None" (stating the aggregate
must not be None, rather than the claimed "must not be empty" wording), and
never returns a default or zero state. -/
theorem claim_C2 {σ ε : Type} (apply : Option σ → ε → Except String σ) :
    apply_all apply ([] : List ε) = Except.error ("Aggregate must not be None")
    ∧ ∀ s : σ, apply_all apply ([] : List ε) ≠ Except.ok s := by
  refine ⟨rfl, ?_⟩
  intro s
  simp [apply_all, List.foldl_nil]

/-- Witness for C2 (amended) at the repository's test aggregate. -/
theorem claim_C2_witness :
    apply_all TestAggregate.apply ([] : List TestEvent) =
        Except.error ("Aggregate must not be None")
    ∧ ∀ s : TestAggregate,
        apply_all TestAggregate.apply ([] : List TestEvent) ≠ Except.ok s :=
  claim_C2 TestAggregate.apply

/-- Claim C10: for every envelope whose rendered serialization contains none
of the substrings backslash-quote, quote-open-brace and close-brace-quote, the
consumer's pre-deserialization rewrite is the identity on the payload — the
consumer deserializes exactly the published text; and every payload that does
contain one of those substrings is changed by the rewrite. -/
theorem claim_C10 {Event : Type} (encE : Event → Json) (e : EventEnvelope Event)
    (h1 : containsSeq pat1 (renderJson (serializeEnvelope encE e)) = false)
    (h2 : containsSeq pat2 (renderJson (serializeEnvelope encE e)) = false)
    (h3 : containsSeq pat3 (renderJson (serializeEnvelope encE e)) = false) :
    mangle (renderJson (serializeEnvelope encE e)) = renderJson (serializeEnvelope encE e)
    ∧ ∀ s : List Char,
        (containsSeq pat1 s || containsSeq pat2 s || containsSeq pat3 s) = true →
        mangle s ≠ s := by
  constructor
  · unfold mangle
    rw [replaceAll_of_not_contains pat1 rep1 _ h1,
      replaceAll_of_not_contains pat2 rep2 _ h2,
      replaceAll_of_not_contains pat3 rep3 _ h3]
  · intro s hOr
    have hlt : (mangle s).length < s.length := by
      unfold mangle
      by_cases c1 : containsSeq pat1 s = true
      · have d1 := length_replaceAll_lt pat1 rep1 (by decide) s c1
        have d2 := length_replaceAll_le pat2 rep2 (by decide) (replaceAll pat1 rep1 s)
        have d3 := length_replaceAll_le pat3 rep3 (by decide)
          (replaceAll pat2 rep2 (replaceAll pat1 rep1 s))
        omega
      · have e1 : containsSeq pat1 s = false := Bool.eq_false_iff.mpr c1
        rw [replaceAll_of_not_contains pat1 rep1 s e1]
        by_cases c2 : containsSeq pat2 s = true
        · have d2 := length_replaceAll_lt pat2 rep2 (by decide) s c2
          have d3 := length_replaceAll_le pat3 rep3 (by decide) (replaceAll pat2 rep2 s)
          omega
        · have e2 : containsSeq pat2 s = false := Bool.eq_false_iff.mpr c2
          rw [replaceAll_of_not_contains pat2 rep2 s e2]
          have c3 : containsSeq pat3 s = true := by
            simpa [e1, e2] using hOr
          exact length_replaceAll_lt pat3 rep3 (by decide) s c3
    intro heq
    rw [heq] at hlt
    omega

set_option maxRecDepth 8000 in
/-- Witness for C10: the sample envelope's rendered serialization contains
none of the three patterns, so the consumer's rewrite leaves it intact. -/
theorem claim_C10_witness :
    mangle (renderJson (serializeEnvelope encTestEvent envSample)) =
        renderJson (serializeEnvelope encTestEvent envSample)
    ∧ ∀ s : List Char,
        (containsSeq pat1 s || containsSeq pat2 s || containsSeq pat3 s) = true →
        mangle s ≠ s :=
  claim_C10 encTestEvent envSample (by decide) (by decide) (by decide)

/-- Claim C9: for every polled message, the consumer body equals: apply the
three string replacements (every backslash-quote to a quote, every
quote-open-brace to an open brace, every close-brace-quote to a close brace,
in the source's order — `mangle`) to the raw payload, and only then
deserialize the result into an `EventEnvelope` and apply it. -/
theorem claim_C9 {Event : Type} (dec : List Char → Except String (EventEnvelope Event))
    (apply : EventEnvelope Event → Except String Unit) (raw : List Char) :
    consumeMessage dec apply raw =
      match dec (mangle raw) with
      | Except.ok env => apply env
      | Except.error err => Except.error err := rfl

/-- Claim C6: when the second of three polled messages fails (to deserialize
or to apply), the cycle commits zero offsets for the batch — the broker's
committed offset is unchanged, the cycle ends in an error before
`commit_consumed` — and the next poll re-delivers all three messages, for any
grouping of the batch into message sets. -/
theorem claim_C6 (pm : List Char → Except String Unit) (b : KafkaBroker)
    (sets : List (List (List Char))) (m1 m2 m3 : List Char) (err : String)
    (hpoll : poll b = [m1, m2, m3]) (hjoin : sets.flatten = [m1, m2, m3])
    (h1 : pm m1 = Except.ok ()) (h2 : pm m2 = Except.error err) :
    (runCycle pm b sets).1.committed = b.committed
    ∧ (runCycle pm b sets).2 = some err
    ∧ poll (runCycle pm b sets).1 = [m1, m2, m3] := by
  have hset : processSet pm [m1, m2, m3] = Except.error err := by
    simp [processSet, h1, h2]
  have hsets : processSets pm sets 0 = Except.error err := by
    rw [processSets_eq_flatten pm sets 0, hjoin, hset]
  refine ⟨?_, ?_, ?_⟩ <;> simp [runCycle, hsets, hpoll]

/-- Witness for C6: a concrete three-message batch through the consumer's own
message processing, the second payload failing to deserialize, grouped into
two message sets. -/
theorem claim_C6_witness :
    (runCycle pmW brokerW setsW).1.committed = brokerW.committed
    ∧ (runCycle pmW brokerW setsW).2 = some ("invalid payload")
    ∧ poll (runCycle pmW brokerW setsW).1 = [['a'], ['b'], ['c']] :=
  claim_C6 pmW brokerW setsW ['a'] ['b'] ['c'] ("invalid payload")
    (by decide) (by decide) pmW_a pmW_b

/-- Counterexample for claim C7 as stated: a consumer whose message fails to
deserialize (a serialization error) is not propagated to the caller by
`on_event` — the `retry` combinator with its infinite fixed-delay iterator
receives it only as `InternalError` and keeps retrying: three observed
attempts all fail with the same wrapped error and no result is returned. -/
theorem claim_C7_counterexample :
    (retryTrace 3 (fun _ => onEventAttempt pmBad brokerBad setsBad)).1 =
      [KafkaEventStreamError.internalError ("SerializationError: malformed envelope"),
        KafkaEventStreamError.internalError ("SerializationError: malformed envelope"),
        KafkaEventStreamError.internalError ("SerializationError: malformed envelope")]
    ∧ (retryTrace 3 (fun _ => onEventAttempt pmBad brokerBad setsBad)).2 = none :=
  ⟨rfl, rfl⟩

/-- Claim C7 (amended): the consumer's outer retry loop does not distinguish
error kinds — every failing cycle, deserialization and apply failures
included, reaches `retry` only as `InternalError` and is retried indefinitely
at the fixed delay; no error propagates to the caller while the retry
iterator continues (every observed attempt fails with the same wrapped error
and no outcome is returned). -/
theorem claim_C7 (pm : List Char → Except String Unit) (b : KafkaBroker)
    (sets : List (List (List Char))) (e : String) (fuel : Nat)
    (h : runCycle pm b sets = (b, some e)) :
    retryTrace fuel (fun _ => onEventAttempt pm b sets) =
      (List.replicate fuel (KafkaEventStreamError.internalError e), none) := by
  have hatt : onEventAttempt pm b sets =
      Except.error (KafkaEventStreamError.internalError e) := by
    unfold onEventAttempt
    rw [h]
  exact retryTrace_const_error _ fuel _ (fun _ => hatt)

/-- Witness for C7 (amended): the serialization-failure consumer, observed for
two attempts. -/
theorem claim_C7_witness :
    retryTrace 2 (fun _ => onEventAttempt pmBad brokerBad setsBad) =
      (List.replicate 2
        (KafkaEventStreamError.internalError ("SerializationError: malformed envelope")),
        none) :=
  claim_C7 pmBad brokerBad setsBad ("SerializationError: malformed envelope") 2 rfl

/-- Claim C4: against the store model built from the spec's contract (the
Cassandra implementation is `todo!()`): persisting a version-0 envelope for a
brand-new aggregate id succeeds (the envelope is appended), and persisting a
second version-0 envelope for the same id fails with `VersionConflict`,
leaving the store unchanged rather than overwriting or duplicating. -/
theorem claim_C4 {Event : Type} (st : ModelEventStore Event) (id : String)
    (env1 env2 : EventEnvelope Event)
    (hfresh : readStore st id = [])
    (h1a : env1.aggregate_id = id) (h1v : env1.version = 0)
    (h2a : env2.aggregate_id = id) (h2v : env2.version = 0) :
    persistStore st env1 = Except.ok (st ++ [env1])
    ∧ persistStore (st ++ [env1]) env2 = Except.error StoreError.versionConflict := by
  simp only [readStore] at hfresh
  constructor
  · simp [persistStore, readStore, h1a, hfresh]
  · have hread : (st ++ [env1]).filter (fun e => e.aggregate_id == env2.aggregate_id) =
        [env1] := by
      rw [h2a, List.filter_append, hfresh]
      simp [h1a]
    simp [persistStore, readStore, hread, h1v, h2v]

/-- Witness for C4: the empty store, the sample envelope and a second
version-0 envelope for the same aggregate id. -/
theorem claim_C4_witness :
    persistStore ([] : ModelEventStore TestEvent) envSample =
        Except.ok ([] ++ [envSample])
    ∧ persistStore ([] ++ [envSample]) envSample2 =
        Except.error StoreError.versionConflict :=
  claim_C4 [] ("aggregate_id") envSample envSample2 rfl rfl rfl rfl rfl

/-- Claim C5: against the store model built from the spec's contract,
`read_from id v` is a suffix of `read id`: the history splits as the envelopes
with version < v followed by `read_from id v`, every dropped envelope has
version < v, and the first returned envelope (if any) has version ≥ v — the
returned sub-list starts at the first envelope whose version is ≥ v, in the
same order. -/
theorem claim_C5 {Event : Type} (st : ModelEventStore Event) (id : String) (v : Int) :
    read_from st id v <:+ readStore st id
    ∧ (readStore st id).takeWhile (fun e => decide (e.version < v)) ++ read_from st id v
        = readStore st id
    ∧ (∀ e ∈ (readStore st id).takeWhile (fun e => decide (e.version < v)), e.version < v)
    ∧ (∀ e : EventEnvelope Event, (read_from st id v).head? = some e → v ≤ e.version) := by
  refine ⟨?_, ?_, ?_, ?_⟩
  · exact ⟨(readStore st id).takeWhile (fun e => decide (e.version < v)),
      List.takeWhile_append_dropWhile _ _⟩
  · exact List.takeWhile_append_dropWhile _ _
  · intro e he
    have := List.mem_takeWhile_imp he
    simpa using this
  · intro e he
    have := head?_dropWhile_false (fun e : EventEnvelope Event => decide (e.version < v))
      (readStore st id) e he
    simp at this
    omega

/-- Witness for C5 at a concrete two-envelope store. -/
theorem claim_C5_witness :
    read_from [envSample, envSample2] ("aggregate_id") 0 <:+
        readStore [envSample, envSample2] ("aggregate_id")
    ∧ (readStore [envSample, envSample2] ("aggregate_id")).takeWhile
          (fun e => decide (e.version < 0)) ++
        read_from [envSample, envSample2] ("aggregate_id") 0
        = readStore [envSample, envSample2] ("aggregate_id")
    ∧ (∀ e ∈ (readStore [envSample, envSample2] ("aggregate_id")).takeWhile
          (fun e => decide (e.version < 0)), e.version < 0)
    ∧ (∀ e : EventEnvelope TestEvent,
        (read_from [envSample, envSample2] ("aggregate_id") 0).head? = some e →
        0 ≤ e.version) :=
  claim_C5 [envSample, envSample2] ("aggregate_id") 0

/-- Claim C8: against the snapshot-store model built from the spec's contract
(no implementation of `SnapshotStore` exists in the repository):
`read aggregate_id` fails with `NotFound` when no snapshot exists for that id,
and returns the latest (most recently persisted) snapshot otherwise. -/
theorem claim_C8 {Aggregate : Type} (st : ModelSnapshotStore Aggregate) (id : String) :
    (st.filter (fun s => s.aggregate_id == id) = [] →
      snapshotRead st id = Except.error StoreError.notFound)
    ∧ (∀ env : SnapshotEnvelope Aggregate, env.aggregate_id = id →
      snapshotRead (snapshotPersist st env) id = Except.ok env) := by
  constructor
  · intro h
    simp [snapshotRead, h]
  · intro env henv
    unfold snapshotRead snapshotPersist
    rw [List.filter_append]
    simp only [List.filter_cons, List.filter_nil, henv, beq_self_eq_true, if_true]
    rw [List.getLast?_concat]

/-- Witness for C8: the empty snapshot store reports `NotFound`; after a
persist the snapshot is returned. -/
theorem claim_C8_witness :
    (([] : ModelSnapshotStore TestAggregate).filter
        (fun s => s.aggregate_id == ("aggregate_id")) = [] →
      snapshotRead ([] : ModelSnapshotStore TestAggregate) ("aggregate_id") =
        Except.error StoreError.notFound)
    ∧ (∀ env : SnapshotEnvelope TestAggregate, env.aggregate_id = ("aggregate_id") →
      snapshotRead (snapshotPersist ([] : ModelSnapshotStore TestAggregate) env)
          ("aggregate_id") = Except.ok env) :=
  claim_C8 [] ("aggregate_id")

end EventSourcing
